import Mathlib

/-!
Verification of the craft-parts lifecycle engine: a shallow embedding of the
sequencer (sequencer.py), the state manager (state_manager/manager.py), the
executor clean logic (executor/__init__.py) and the scriptlet control API
(executor/runner.py), together with proofs about the planning decisions,
state-wrapper ordering, dirty/outdated reports and the clean cascade.

Auxiliary modules of the repository (steps.py, parts.py, actions.py, the
PartState classes and report classes) are not part of the provided sources;
their definitions below are modelled from the specification and are marked
as such in their doc comments.  Everything else is translated directly from
the Python sources.
-/

namespace CraftParts

/-- Modelled from the spec: steps.py is not among the provided sources.
The closed ordinal set of lifecycle steps with total order
PULL < BUILD < STAGE < PRIME (spec section 3). -/
inductive Step where
  | pull
  | build
  | stage
  | prime
deriving DecidableEq

/-- Modelled from the spec: ordinal position of a step in the lifecycle. -/
def stepIdx : Step → Nat
  | .pull => 1
  | .build => 2
  | .stage => 3
  | .prime => 4

/-- Modelled from the spec: the order `s <= t` on steps, used by the
executor's clean logic (`step <= Step.STAGE`). -/
def stepLe (a b : Step) : Bool :=
  decide (stepIdx a ≤ stepIdx b)

/-- Modelled from the spec: `previous_steps(s)` - all steps strictly before
`s`, in lifecycle order. -/
def previousSteps : Step → List Step
  | .pull => []
  | .build => [.pull]
  | .stage => [.pull, .build]
  | .prime => [.pull, .build, .stage]

/-- Modelled from the spec: `next_steps(s)` - all steps strictly after `s`,
in lifecycle order. -/
def nextSteps : Step → List Step
  | .pull => [.build, .stage, .prime]
  | .build => [.stage, .prime]
  | .stage => [.prime]
  | .prime => []

/-- Modelled from the spec: `dependency_prerequisite_step(s)` returns STAGE
for STAGE and PRIME (a dependency must be staged first) and nothing for
PULL and BUILD (spec sections 3 and 4.1). -/
def dependencyPrerequisiteStep : Step → Option Step
  | .stage => some .stage
  | .prime => some .stage
  | _ => none

/-- The descending chain `s, prev s, ...` checked by
`StateManager.should_step_run`, which tests its own step and then recurses
on `previous_steps()[-1]`.  Unrolling that recursion visits exactly this
list. -/
def stepsChain (s : Step) : List Step :=
  s :: (previousSteps s).reverse

/-- The verb used by the sequencer when preparing dependencies
(`_step_verb` in sequencer.py). -/
def stepVerb : Step → String
  | .pull => "pull"
  | .build => "build"
  | .stage => "stage"
  | .prime => "prime"

/-- Property and project-option maps, modelled as association lists from
key to value (the concrete value type is irrelevant to the embedded
operations, which only compare values for equality). -/
abbrev Props := List (String × String)

/-- Modelled from the spec: a part of the specification (parts.py is not
among the provided sources).  `after` lists the names of its dependencies;
`properties` is the part's current expanded property map (the result of
`Validator.expand_part_properties(part.properties)`, which equals the
marshalled part spec for the keys of interest). -/
structure Part where
  name : String
  after : List String
  properties : Props
deriving DecidableEq

/-- Modelled from the spec: per-part per-step state record (spec section 3).
Only the components read by the embedded operations are modelled: the diff
operations compare `part_properties` and `project_options` on the keys of
interest; the optional `assets`, `files` and `directories` components are
never read by the sequencer or the state manager and are omitted. -/
structure PartState where
  kind : Step
  partProperties : Props
  projectOptions : Props
deriving DecidableEq

/-- Modelled from the spec: the property keys each step variant cares about
(spec section 4.2 examples plus the recognized configuration keys of
section 6). -/
def propertiesOfInterest : Step → List String
  | .pull => ["source", "source-type", "source-checksum", "source-branch",
      "source-tag", "source-commit", "source-depth", "source-submodules",
      "stage-packages", "override-pull"]
  | .build => ["build-packages", "build-snaps", "build-attributes",
      "override-build", "organize"]
  | .stage => ["stage", "override-stage"]
  | .prime => ["prime", "override-prime"]

/-- Modelled from the spec: the project options each step variant cares
about (spec section 4.2: `target_arch` affects PULL). -/
def projectOptionsOfInterest : Step → List String
  | .pull => ["target_arch"]
  | _ => []

/-- `diff_properties_of_interest`: the keys of interest whose value differs
between the stored state and the current properties. -/
def diffPropertiesOfInterest (st : PartState) (current : Props) : List String :=
  (propertiesOfInterest st.kind).filter
    (fun k => st.partProperties.lookup k != current.lookup k)

/-- `diff_project_options_of_interest`: the option keys of interest whose
value differs between the stored state and the current project options. -/
def diffProjectOptionsOfInterest (st : PartState) (current : Props) : List String :=
  (projectOptionsOfInterest st.kind).filter
    (fun k => st.projectOptions.lookup k != current.lookup k)

/-- Modelled from the spec: one changed dependency recorded in a dirty
report (dirty_report.py is not among the provided sources). -/
structure Dependency where
  partName : String
  step : Step
deriving DecidableEq

/-- Modelled from the spec: `DirtyReport { dirty_properties,
dirty_project_options, changed_dependencies }`. -/
structure DirtyReport where
  dirtyProperties : List String
  dirtyProjectOptions : List String
  changedDependencies : List Dependency
deriving DecidableEq

/-- Modelled from the spec: the report's human-readable reason used by the
sequencer as a RERUN reason (`dirty_report.summary()`); the exact wording
is immaterial to the embedded claims. -/
def DirtyReport.summary (r : DirtyReport) : String :=
  if !r.dirtyProperties.isEmpty then "properties changed"
  else if !r.dirtyProjectOptions.isEmpty then "options changed"
  else "dependencies changed"

/-- Modelled from the spec: `OutdatedReport { source_updated |
previous_step_modified }` (outdated_report.py is not among the provided
sources). -/
structure OutdatedReport where
  sourceUpdated : Bool
  previousStepModified : Option Step
deriving DecidableEq

/-- Modelled from the spec: the outdated report's human-readable reason
(`outdated_report.summary()`). -/
def OutdatedReport.summary (r : OutdatedReport) : String :=
  if r.sourceUpdated then "source changed" else "previous step changed"

/-- `_StateWrapper` (manager.py): a `PartState` plus ordering metadata - a
persisted wrapper carries a file timestamp (modelled as a natural number),
an ephemeral wrapper carries a per-process serial; `updated` marks a step
scheduled to be refreshed. -/
structure StateWrapper where
  state : PartState
  timestamp : Option Nat
  serial : Nat
  updated : Bool
deriving DecidableEq

/-- `_StateWrapper.is_newer_than` (manager.py lines 88-107): the cascade of
the four ordering rules, translated directly. -/
def isNewerThan (a b : StateWrapper) : Bool :=
  match a.timestamp, b.timestamp with
  | some ta, some tb => decide (tb < ta)
  | some _, none => false
  | none, some _ => true
  | none, none => decide (b.serial < a.serial)

/-- `StateManager` together with its `_EphemeralStates` store (manager.py):
the per-part per-step wrapper map, the serial generator (`itertools.count(1)`
modelled as the next serial to hand out), the part list and project options
held by the manager, and `sourceCheck` - an oracle modelled from the spec
giving, per part name, whether the part's source handler reports an
upstream change (`source_handler.check(state_file)`; handlers that do not
support checking, and absent handlers, contribute `false`). -/
structure StateManager where
  state : String → Step → Option StateWrapper
  nextSerial : Nat
  allParts : List Part
  projectOptions : Props
  sourceCheck : String → Bool

/-- `_EphemeralStates.get`. -/
def smGet (sm : StateManager) (name : String) (step : Step) : Option StateWrapper :=
  sm.state name step

/-- `_EphemeralStates.set` with a present wrapper. -/
def smSet (sm : StateManager) (name : String) (step : Step) (w : StateWrapper) : StateManager :=
  { sm with state := fun q t => if q = name ∧ t = step then some w else sm.state q t }

/-- `_EphemeralStates.remove`. -/
def smRemove (sm : StateManager) (name : String) (step : Step) : StateManager :=
  { sm with state := fun q t => if q = name ∧ t = step then none else sm.state q t }

/-- `StateManager.has_step_run` (`_EphemeralStates.test`). -/
def hasStepRun (sm : StateManager) (part : Part) (step : Step) : Bool :=
  (smGet sm part.name step).isSome

/-- `_EphemeralStates.new_ephemeral_state`: wrap a state with the next
serial and no timestamp; returns the wrapper and the manager with the
advanced serial generator. -/
def newEphemeralState (sm : StateManager) (ps : PartState) (updated : Bool) :
    StateWrapper × StateManager :=
  (⟨ps, none, sm.nextSerial, updated⟩, { sm with nextSerial := sm.nextSerial + 1 })

/-- `StateManager.set_state`: store an ephemeral wrapper for the part and
step. -/
def setState (sm : StateManager) (part : Part) (step : Step) (ps : PartState) : StateManager :=
  let ws := newEphemeralState sm ps false
  smSet ws.2 part.name step ws.1

/-- `StateManager.update_state_timestamp` (`_EphemeralStates.update_timestamp`):
rewrap the existing state with a fresh serial. -/
def updateStateTimestamp (sm : StateManager) (part : Part) (step : Step) : StateManager :=
  match smGet sm part.name step with
  | none => sm
  | some w =>
    let ws := newEphemeralState sm w.state false
    smSet ws.2 part.name step ws.1

/-- `StateManager.mark_step_updated` (`_EphemeralStates.set_updated`):
rewrap the existing state with a fresh serial and `updated = true`. -/
def markStepUpdated (sm : StateManager) (part : Part) (step : Step) : StateManager :=
  match smGet sm part.name step with
  | none => sm
  | some w =>
    let ws := newEphemeralState sm w.state true
    smSet ws.2 part.name step ws.1

/-- `_EphemeralStates.was_updated`. -/
def wasUpdated (sm : StateManager) (name : String) (step : Step) : Bool :=
  match smGet sm name step with
  | some w => w.updated
  | none => false

/-- `StateManager.clean_part`: remove the state for this and all later
steps. -/
def cleanPart (sm : StateManager) (part : Part) (step : Step) : StateManager :=
  ([step] ++ nextSteps step).foldl (fun m s => smRemove m part.name s) sm

/-- Modelled from the spec: `part_dependencies(name, part_list)` with the
default non-recursive mode (parts.py is not among the provided sources) -
the direct dependencies of the named part, in part-list order. -/
def partDependencies (pl : List Part) (name : String) : List Part :=
  match pl.find? (fun p => p.name == name) with
  | none => []
  | some p => pl.filter (fun q => p.after.contains q.name)

/-- Drop parts whose name already occurred earlier in the list. -/
def dedupByName (seen : List String) : List Part → List Part
  | [] => []
  | p :: rest =>
    if seen.contains p.name then dedupByName seen rest
    else p :: dedupByName (p.name :: seen) rest

/-- Modelled from the spec: the transitive dependency closure used by
`part_dependencies(..., recursive=True)`.  The recursion is bounded by a
fuel argument; for the acyclic part graphs required by the spec a fuel of
`pl.length` always suffices. -/
def partDependenciesRecW : Nat → List Part → String → List Part
  | 0, _, _ => []
  | fuel + 1, pl, name =>
    let direct := partDependencies pl name
    dedupByName [] (direct ++ direct.flatMap (fun d => partDependenciesRecW fuel pl d.name))

/-- Modelled from the spec: `part_dependencies(name, part_list,
recursive=True)`. -/
def partDependenciesRec (pl : List Part) (name : String) : List Part :=
  partDependenciesRecW pl.length pl name

/-- Modelled from the spec: `part_list_by_name` - the named parts if a
non-empty selection was provided, else all parts (spec section 4.4). -/
def partListByName (names : Option (List String)) (pl : List Part) : List Part :=
  match names with
  | none => pl
  | some ns => if ns.isEmpty then pl else pl.filter (fun p => ns.contains p.name)

/-- Pick the part with the smallest name from a list. -/
def pickMinName : List Part → Option Part
  | [] => none
  | p :: rest =>
    match pickMinName rest with
    | none => some p
    | some q => if p.name < q.name then some p else some q

/-- Modelled from the spec: one round of `sort_parts` - emit the
name-smallest part all of whose dependencies have already been emitted
(topological sort with stable tie-break on name, spec section 4.1).  The
cycle failure (`CycleDetected`) is not modelled; on a cyclic remainder the
remaining parts are returned as they are. -/
def sortPartsGo : Nat → List Part → List Part
  | 0, remaining => remaining
  | fuel + 1, remaining =>
    let ready := remaining.filter
      (fun p => !(remaining.any (fun q => !(q.name == p.name) && p.after.contains q.name)))
    match pickMinName ready with
    | none => remaining
    | some p => p :: sortPartsGo fuel (remaining.filter (fun q => !(q.name == p.name)))

/-- Modelled from the spec: `sort_parts` (spec section 4.1). -/
def sortParts (ps : List Part) : List Part :=
  sortPartsGo ps.length ps

/-- `StateManager.__init__` (manager.py lines 185-203): load the persistent
states.  `load_state` (states.py is not among the provided sources) is
modelled from the spec as a `disk` function giving, per part name and step,
the stored `PartState` and its file timestamp; a part/step pair with a
stored state and timestamp is wrapped into a persisted wrapper.  The
serial generator starts at 1 (`itertools.count(1)`). -/
def mkStateManager (allParts : List Part) (projectOptions : Props)
    (disk : String → Step → Option (PartState × Nat)) (sourceCheck : String → Bool) :
    StateManager :=
  { state := fun q t =>
      if allParts.any (fun p => p.name == q) then
        (disk q t).map (fun pr => ⟨pr.1, some pr.2, 0, false⟩)
      else none,
    nextSerial := 1,
    allParts := allParts,
    projectOptions := projectOptions,
    sourceCheck := sourceCheck }

/-- `StateManager._dirty_report_for_part` (manager.py lines 330-370): a
step is dirty when a property of interest or a project option of interest
changed since the stored state was written. -/
def dirtyReportForPart (sm : StateManager) (part : Part) (step : Step) : Option DirtyReport :=
  match smGet sm part.name step with
  | none => none
  | some stw =>
    let properties := diffPropertiesOfInterest stw.state part.properties
    let options := diffProjectOptionsOfInterest stw.state sm.projectOptions
    if properties.isEmpty && options.isEmpty then none
    else some ⟨properties, options, []⟩

/-- The scan over reversed previous steps in
`StateManager._outdated_report_for_part` (manager.py lines 417-425): the
first earlier step whose stored wrapper is newer than this step's wrapper
yields the report. -/
def findNewerPrevious (sm : StateManager) (part : Part) (stw : StateWrapper) :
    List Step → Option OutdatedReport
  | [] => none
  | s :: rest =>
    match smGet sm part.name s with
    | some pw =>
      if isNewerThan pw stw then some ⟨false, some s⟩
      else findNewerPrevious sm part stw rest
    | none => findNewerPrevious sm part stw rest

/-- `StateManager._outdated_report_for_part` (manager.py lines 376-425):
no stored state yields no report; for PULL the source handler's check
(modelled by the `sourceCheck` oracle) decides; for other steps the
reversed previous steps are scanned for a newer wrapper. -/
def outdatedReportForPart (sm : StateManager) (part : Part) (step : Step) :
    Option OutdatedReport :=
  match smGet sm part.name step with
  | none => none
  | some stw =>
    if step = Step.pull then
      if sm.sourceCheck part.name then some ⟨true, none⟩ else none
    else
      findNewerPrevious sm part stw (previousSteps step).reverse

/-- `StateManager.outdated_report` (manager.py lines 318-328): a step
already marked updated returns no outdated report. -/
def outdatedReport (sm : StateManager) (part : Part) (step : Step) : Option OutdatedReport :=
  if wasUpdated sm part.name step then none
  else outdatedReportForPart sm part step

/-- The per-dependency loop of `StateManager.dirty_report` (manager.py
lines 294-311): a dependency is recorded as changed when its wrapper at
the prerequisite step is newer than this step's wrapper (a missing wrapper
counts as changed), or when the dependency should run at the prerequisite
step (`ssrF`, evaluated only when the wrapper comparison did not already
decide, mirroring Python's shortcircuit `or`). -/
def dirtyDepsGo (sm : StateManager) (prereq : Step) (stw : StateWrapper)
    (ssrF : Part → Except String Bool) : List Part → Except String (List Dependency)
  | [] => .ok []
  | d :: rest => do
    let depChanged :=
      match smGet sm d.name prereq with
      | some pstw => isNewerThan pstw stw
      | none => true
    let changed ← if depChanged then pure true else ssrF d
    let tail ← dirtyDepsGo sm prereq stw ssrF rest
    .ok (if changed then ⟨d.name, prereq⟩ :: tail else tail)

/-- `StateManager.dirty_report` (manager.py lines 257-316) with the
recursive `should_step_run` consultation abstracted into `ssrF prereq dep`:
the per-part report decides first; otherwise, for steps with a dependency
prerequisite, the transitive dependencies are examined; a missing stored
wrapper at this point raises `InternalError` (modelled as the error
result). -/
def dirtyReportCore (sm : StateManager) (part : Part) (step : Step)
    (ssrF : Step → Part → Except String Bool) : Except String (Option DirtyReport) :=
  match dirtyReportForPart sm part step with
  | some report => .ok (some report)
  | none =>
    match dependencyPrerequisiteStep step with
    | none => .ok none
    | some prereq =>
      match smGet sm part.name step with
      | none => .error "InternalError: part and step should already have been run"
      | some stw => do
        let changed ← dirtyDepsGo sm prereq stw (ssrF prereq)
          (partDependenciesRec sm.allParts part.name)
        .ok (if changed.isEmpty then none else some ⟨[], [], changed⟩)

/-- The unrolled recursion of `StateManager.should_step_run` (manager.py
lines 214-240) over a descending chain of steps, with the dirty report
computation abstracted as `dirtyF`: a step should run when it has not run,
or is outdated, or is dirty, or the same holds further down the chain.
The evaluation order (`not has_step_run or outdated or dirty`) follows the
Python shortcircuit. -/
def shouldStepRunChainF (sm : StateManager) (part : Part)
    (dirtyF : Step → Except String (Option DirtyReport)) :
    List Step → Except String Bool
  | [] => .ok false
  | s :: rest =>
    if hasStepRun sm part s = false then .ok true
    else if (outdatedReport sm part s).isSome then .ok true
    else do
      let dr ← dirtyF s
      if dr.isSome then .ok true
      else shouldStepRunChainF sm part dirtyF rest

/-- `StateManager.dirty_report`, closing the mutual recursion with
`should_step_run` through a fuel argument: each descent into a
dependency's `should_step_run` consumes one unit.  The Python recursion
terminates because the part graph is acyclic; for such graphs any fuel at
least the dependency depth gives the Python result, and exhausted fuel is
an error result (never a silently wrong report). -/
def dirtyReportW : Nat → StateManager → Part → Step → Except String (Option DirtyReport)
  | 0, sm, part, step =>
    dirtyReportCore sm part step (fun _ _ => .error "insufficient recursion fuel")
  | fuel + 1, sm, part, step =>
    dirtyReportCore sm part step
      (fun prereq d => shouldStepRunChainF sm d (dirtyReportW fuel sm d) (stepsChain prereq))

/-- `StateManager.should_step_run` (manager.py lines 214-240). -/
def shouldStepRun (fuel : Nat) (sm : StateManager) (part : Part) (step : Step) :
    Except String Bool :=
  shouldStepRunChainF sm part (dirtyReportW fuel sm part) (stepsChain step)

/-- `Action` and `ActionType` - modelled from the spec (actions.py is not
among the provided sources): `action_type ∈ {RUN, RERUN, UPDATE, SKIP}`
(spec section 3). -/
inductive ActionType where
  | run
  | rerun
  | skip
  | update
deriving DecidableEq

/-- Modelled from the spec: the action tuple
`(part_name, step, action_type, reason?)` (spec section 3). -/
structure Action where
  partName : String
  step : Step
  actionType : ActionType
  reason : Option String
deriving DecidableEq

/-- The sequencer's mutable context: the state manager `_sm` and the
accumulated `_actions` list. -/
structure SeqSt where
  sm : StateManager
  actions : List Action

/-- `Sequencer._add_action`: append an action for the part and step. -/
def addAction (part : Part) (step : Step) (ty : ActionType) (reason : Option String)
    (st : SeqSt) : SeqSt :=
  { st with actions := st.actions ++ [⟨part.name, step, ty, reason⟩] }

/-- The ephemeral state written by `Sequencer._run_step` right after the
action is emitted: a state of the step's kind carrying the current part
properties and project options (states.py is not among the provided
sources; the variants' shared shape is modelled from the spec, and the
externally computed build assets and the empty file sets are omitted as
they are never read back). -/
def runStateFor (part : Part) (step : Step) (options : Props) : PartState :=
  ⟨step, part.properties, options⟩

/-- The Python repr of a part name as used in the prepare reason
(`f"required to {verb} {part.name!r}"`): the name between single
quotes. -/
def pyRepr (s : String) : String :=
  (Char.ofNat 39).toString ++ s ++ (Char.ofNat 39).toString

/-- `Sequencer._run_step` (sequencer.py lines 164-231) with the dependency
preparation abstracted as `prepF`: prepare, emit RUN (or RERUN when
rerunning), then eagerly store the ephemeral state for the part and
step. -/
def runStepF (prepF : Part → Step → SeqSt → Except String SeqSt) (part : Part)
    (step : Step) (reason : Option String) (rerun : Bool) (st : SeqSt) :
    Except String SeqSt := do
  let st1 ← prepF part step st
  let st2 := addAction part step (if rerun then ActionType.rerun else ActionType.run)
    reason st1
  .ok { st2 with sm := setState st2.sm part step (runStateFor part step st2.sm.projectOptions) }

/-- `Sequencer._rerun_step` (sequencer.py lines 233-240): clean the step
and later steps for this part, then run it again. -/
def rerunStepF (prepF : Part → Step → SeqSt → Except String SeqSt) (part : Part)
    (step : Step) (reason : Option String) (st : SeqSt) : Except String SeqSt :=
  runStepF prepF part step reason true { st with sm := cleanPart st.sm part step }

/-- `Sequencer._update_step` (sequencer.py lines 242-245): emit UPDATE and
bump the state's timestamp/serial. -/
def updateStepSt (part : Part) (step : Step) (reason : Option String) (st : SeqSt) : SeqSt :=
  let st1 := addAction part step ActionType.update reason st
  { st1 with sm := updateStateTimestamp st1.sm part step }

/-- The condition of sequencer.py line 109:
`part_names and current_step == target_step and part.name in part_names`
(an empty or absent selection is falsy). -/
def requestedCond (names : Option (List String)) (current target : Step) (part : Part) : Bool :=
  match names with
  | none => false
  | some l => !l.isEmpty && (current == target) && l.contains part.name

/-- Sequencer.py lines 110-111: `if not reason: reason = "requested step"`
(Python treats an absent and an empty reason as falsy). -/
def reasonOrRequested (reason : Option String) : Option String :=
  match reason with
  | none => some "requested step"
  | some s => if s = "" then some "requested step" else some s

/-- The `mark_step_updated` call made by `_add_step_actions` after either
branch of the outdated case (sequencer.py line 140). -/
def markAfter (part : Part) (current : Step) (st1 : SeqSt) : SeqSt :=
  { st1 with sm := markStepUpdated st1.sm part current }

/-- `Sequencer._add_step_actions` (sequencer.py lines 88-146) with the
dependency preparation abstracted as `prepF`: the five-way decision - run
a step that has not run; rerun the explicitly requested target step; rerun
a dirty step (cleaning first); update or rerun an outdated step, marking
it updated afterwards in either branch; otherwise skip. -/
def addStepActionsF (fuel : Nat) (prepF : Part → Step → SeqSt → Except String SeqSt)
    (current target : Step) (part : Part) (names : Option (List String))
    (reason : Option String) (st : SeqSt) : Except String SeqSt :=
  if hasStepRun st.sm part current = false then
    runStepF prepF part current reason false st
  else if requestedCond names current target part then
    rerunStepF prepF part current (reasonOrRequested reason) st
  else do
    let dr ← dirtyReportW fuel st.sm part current
    match dr with
    | some report => rerunStepF prepF part current (some report.summary) st
    | none =>
      match outdatedReport st.sm part current with
      | some report =>
        if current = Step.pull ∨ current = Step.build then
          .ok (markAfter part current (updateStepSt part current (some report.summary) st))
        else
          (rerunStepF prepF part current (some report.summary) st).map (markAfter part current)
      | none => .ok (addAction part current ActionType.skip (some "already ran") st)

/-- The step-by-part loop of `Sequencer._add_all_actions` (sequencer.py
lines 75-86), iterating over the flattened (step, part) pairs. -/
def addAllActionsGoF (fuel : Nat) (prepF : Part → Step → SeqSt → Except String SeqSt)
    (target : Step) (names : Option (List String)) (reason : Option String) :
    List (Step × Part) → SeqSt → Except String SeqSt
  | [], st => .ok st
  | (s, p) :: rest, st => do
    let st1 ← addStepActionsF fuel prepF s target p names reason st
    addAllActionsGoF fuel prepF target names reason rest st1

/-- `Sequencer._add_all_actions` (sequencer.py lines 67-86): for each step
up to the target and each selected part, decide the step's action. -/
def addAllActionsF (fuel : Nat) (prepF : Part → Step → SeqSt → Except String SeqSt)
    (pl : List Part) (target : Step) (names : Option (List String))
    (reason : Option String) (st : SeqSt) : Except String SeqSt :=
  let selected := partListByName names pl
  let pairs := (previousSteps target ++ [target]).flatMap (fun s => selected.map (fun p => (s, p)))
  addAllActionsGoF fuel prepF target names reason pairs st

/-- The filter of `Sequencer._prepare_step`:
`{p for p in all_deps if self._sm.should_step_run(p, prerequisite_step)}`,
in dependency-list order. -/
def filterShouldRun (fuel : Nat) (sm : StateManager) (prereq : Step) :
    List Part → Except String (List Part)
  | [] => .ok []
  | d :: rest => do
    let b ← shouldStepRun fuel sm d prereq
    let tail ← filterShouldRun fuel sm prereq rest
    .ok (if b then d :: tail else tail)

/-- The per-dependency loop of `Sequencer._prepare_step`: recursively plan
each dependency up to the prerequisite step with the prepare reason. -/
def prepGoF (aaaF : Option (List String) → Option String → SeqSt → Except String SeqSt)
    (reasonStr : String) : List Part → SeqSt → Except String SeqSt
  | [], st => .ok st
  | d :: rest, st => do
    let st1 ← aaaF (some [d.name]) (some reasonStr) st
    prepGoF aaaF reasonStr rest st1

/-- `Sequencer._prepare_step` (sequencer.py lines 148-162) with the
recursive `_add_all_actions` call abstracted as `aaaF`: nothing to prepare
for steps without a dependency prerequisite; otherwise recursively plan
each direct dependency that should run at the prerequisite step, with the
reason `required to <verb> '<part>'`. -/
def prepareCore (filterFuel : Nat) (pl : List Part) (part : Part) (step : Step)
    (aaaF : Step → Option (List String) → Option String → SeqSt → Except String SeqSt)
    (st : SeqSt) : Except String SeqSt :=
  match dependencyPrerequisiteStep step with
  | none => .ok st
  | some prereq => do
    let deps ← filterShouldRun filterFuel st.sm prereq (partDependencies pl part.name)
    prepGoF (fun names reason st2 => aaaF prereq names reason st2)
      ("required to " ++ stepVerb step ++ " " ++ pyRepr part.name) deps st

/-- `Sequencer._prepare_step`, closing the recursion through
`_add_all_actions` with a fuel argument: each prepare descent consumes one
unit.  The Python recursion terminates because the part graph is acyclic;
for such graphs any fuel at least the dependency depth gives the Python
result, and exhausted fuel is an error result. -/
def prepareStepW : Nat → List Part → Part → Step → SeqSt → Except String SeqSt
  | 0, pl, part, step, st =>
    prepareCore 0 pl part step (fun _ _ _ _ => .error "insufficient recursion fuel") st
  | fuel + 1, pl, part, step, st =>
    prepareCore (fuel + 1) pl part step
      (fun target names reason st2 =>
        addAllActionsF fuel (prepareStepW fuel pl) pl target names reason st2) st

/-- `Sequencer._add_step_actions` with the concrete dependency
preparation. -/
def addStepActions (fuel : Nat) (pl : List Part) (current target : Step) (part : Part)
    (names : Option (List String)) (reason : Option String) (st : SeqSt) :
    Except String SeqSt :=
  addStepActionsF fuel (prepareStepW fuel pl) current target part names reason st

/-- `Sequencer._add_all_actions` with the concrete dependency
preparation. -/
def addAllActions (fuel : Nat) (pl : List Part) (target : Step)
    (names : Option (List String)) (reason : Option String) (st : SeqSt) :
    Except String SeqSt :=
  addAllActionsF fuel (prepareStepW fuel pl) pl target names reason st

/-- `Sequencer.plan` (sequencer.py lines 42-47): reset the action list and
add all actions for the target step and part selection. -/
def plan (fuel : Nat) (pl : List Part) (sm : StateManager) (target : Step)
    (names : Option (List String)) : Except String SeqSt :=
  addAllActions fuel pl target names none ⟨sm, []⟩

/-- `Sequencer.__init__` + `plan`: the sequencer sorts the part list
topologically at construction and plans against it. -/
def sequencerPlan (fuel : Nat) (parts : List Part) (sm : StateManager) (target : Step)
    (names : Option (List String)) : Except String SeqSt :=
  plan fuel (sortParts parts) sm target names

/-- Project a sequencer result to its emitted action list. -/
def resultActions : Except String SeqSt → Option (List Action)
  | .ok st => some st.actions
  | .error _ => none

/-- The shared work directories touched by `Executor._clean_all_parts`
(executor/__init__.py): whether the prime, stage and parts directories
exist on disk. -/
structure WorkDirs where
  primeDir : Bool
  stageDir : Bool
  partsDir : Bool
deriving DecidableEq

/-- The three directories removable by `Executor._clean_all_parts`. -/
inductive WorkDir where
  | primeD
  | stageD
  | partsD
deriving DecidableEq

/-- `shutil.rmtree` on a work directory: removes it when present, raises
`FileNotFoundError` when absent.  The error value carries the directories
as they stand when the exception is raised, so that the surrounding
`contextlib.suppress` can be modelled as catching it and leaving the block
with that state. -/
def rmtree (fs : WorkDirs) : WorkDir → Except WorkDirs WorkDirs
  | .primeD => if fs.primeDir then .ok { fs with primeDir := false } else .error fs
  | .stageD => if fs.stageDir then .ok { fs with stageDir := false } else .error fs
  | .partsD => if fs.partsDir then .ok { fs with partsDir := false } else .error fs

/-- `Executor._clean_all_parts` (executor/__init__.py lines 117-123): the
whole body runs under a single `contextlib.suppress(FileNotFoundError)`,
so the first `rmtree` that raises ends the block; remove the prime
directory, then the stage directory when `step <= STAGE`, then the parts
directory when `step <= PULL`. -/
def cleanAllParts (fs : WorkDirs) (step : Step) : WorkDirs :=
  let body : Except WorkDirs WorkDirs := do
    let fs1 ← rmtree fs .primeD
    let fs2 ← if stepLe step .stage then rmtree fs1 .stageD else .ok fs1
    let fs3 ← if stepLe step .pull then rmtree fs2 .partsD else .ok fs2
    .ok fs3
  match body with
  | .ok f => f
  | .error f => f

/-- `Executor.clean` (executor/__init__.py lines 98-115), restricted to its
effect on the shared work directories: with no parts named,
`_clean_all_parts` runs; the named path cleans per-part state and work
directories through the part handlers (part_handler.py is not among the
provided sources) and does not touch the three shared directories
modelled here. -/
def executorClean (fs : WorkDirs) (step : Step) (names : Option (List String)) : WorkDirs :=
  match names with
  | none => cleanAllParts fs step
  | some l => if l.isEmpty then cleanAllParts fs step else fs

/-- A scriptlet control-FIFO message after `json.loads` (the JSON parser
itself is the external `json` module): either the text was not valid JSON,
or it decoded to an object with the given attributes. -/
inductive ControlMessage where
  | invalid : String → ControlMessage
  | obj : List (String × String) → ControlMessage
deriving DecidableEq

/-- The errors raised by `Runner._handle_control_api`
(executor/runner.py). -/
inductive RunnerError where
  | internalError : String → RunnerError
  | invalidControlAPICall : String → String → RunnerError
deriving DecidableEq

/-- `Runner._handle_control_api` (executor/runner.py lines 201-230):
invalid JSON raises `InternalError`; a missing `function` or `args`
attribute raises `InternalError`; the four known function names dispatch
to the built-in step implementations (external I/O, modelled as success);
any other function name raises `InvalidControlAPICall`. -/
def handleControlApi (partName scriptletName : String) (msg : ControlMessage) :
    Except RunnerError Unit :=
  match msg with
  | .invalid _ =>
    .error (.internalError (scriptletName ++ " scriptlet called a function with invalid json"))
  | .obj attrs =>
    if (attrs.lookup "function").isNone then
      .error (.internalError (scriptletName ++ " control call missing attribute function"))
    else if (attrs.lookup "args").isNone then
      .error (.internalError (scriptletName ++ " control call missing attribute args"))
    else
      match attrs.lookup "function" with
      | some "pull" => .ok ()
      | some "build" => .ok ()
      | some "stage" => .ok ()
      | some "prime" => .ok ()
      | some other => .error (.invalidControlAPICall partName ("invalid function " ++ pyRepr other))
      | none => .error (.internalError "unreachable")

/-- Is a control-API result the `InvalidControlAPICall` error? -/
def isInvalidControlCall : Except RunnerError Unit → Bool
  | .error (.invalidControlAPICall _ _) => true
  | _ => false

/-- Scenario for the fresh two-part plan: part A with no dependencies. -/
def partA6 : Part := ⟨"A", [], [("source", "a")]⟩

/-- Scenario for the fresh two-part plan: part B after A. -/
def partB6 : Part := ⟨"B", ["A"], [("source", "b")]⟩

/-- Scenario for the fresh two-part plan: no persisted state, no source
changes. -/
def sm6 : StateManager := mkStateManager [partA6, partB6] [] (fun _ _ => none) (fun _ => false)

/-- Stored (old) properties of part A in the requested-step scenario. -/
def propsAold : Props := [("source", "src"), ("stage", "old")]

/-- Requested-step scenario: part A whose `stage` property changed since
its STAGE state was stored. -/
def partAc : Part := ⟨"A", [], [("source", "src"), ("stage", "new")]⟩

/-- Requested-step scenario: part B after A, unchanged. -/
def partBc : Part := ⟨"B", ["A"], [("source", "srcb")]⟩

/-- Requested-step scenario persisted states: A has run through STAGE
(timestamps 1..3, with the old properties), B has run through BUILD
(timestamps 4..5). -/
def diskC : String → Step → Option (PartState × Nat) := fun q t =>
  if q = "A" ∧ t = Step.pull then some (⟨.pull, propsAold, []⟩, 1)
  else if q = "A" ∧ t = Step.build then some (⟨.build, propsAold, []⟩, 2)
  else if q = "A" ∧ t = Step.stage then some (⟨.stage, propsAold, []⟩, 3)
  else if q = "B" ∧ t = Step.pull then some (⟨.pull, [("source", "srcb")], []⟩, 4)
  else if q = "B" ∧ t = Step.build then some (⟨.build, [("source", "srcb")], []⟩, 5)
  else none

/-- Requested-step scenario state manager. -/
def smc : StateManager := mkStateManager [partAc, partBc] [] diskC (fun _ => false)

/-- The reason string the sequencer passes down when preparing A for B's
STAGE: `required to stage 'B'`. -/
def reasonBc : String := "required to stage " ++ pyRepr "B"

/-- The four SKIP actions emitted before the requested-step scenario
reaches A's STAGE decision. -/
def skipsC : List Action :=
  [⟨"B", .pull, .skip, some "already ran"⟩, ⟨"B", .build, .skip, some "already ran"⟩,
   ⟨"A", .pull, .skip, some "already ran"⟩, ⟨"A", .build, .skip, some "already ran"⟩]

theorem exceptBind_ok {α β : Type} (a : α) (f : α → Except String β) :
    (Except.ok a >>= f) = f a := rfl

theorem exceptBind_error {α β : Type} (e : String) (f : α → Except String β) :
    ((Except.error e : Except String α) >>= f) = .error e := rfl

/-- C2: `is_newer_than` is decided by exactly the four ordering rules: with
two timestamps compare them strictly; a timestamped wrapper is never newer
than an untimestamped one; an untimestamped wrapper is always newer than a
timestamped one; with no timestamps compare serials strictly. -/
theorem isNewerThan_ordering_rules (a b : StateWrapper) :
    (∀ ta tb, a.timestamp = some ta → b.timestamp = some tb →
      (isNewerThan a b = true ↔ tb < ta)) ∧
    (∀ ta, a.timestamp = some ta → b.timestamp = none → isNewerThan a b = false) ∧
    (∀ tb, a.timestamp = none → b.timestamp = some tb → isNewerThan a b = true) ∧
    (a.timestamp = none → b.timestamp = none →
      (isNewerThan a b = true ↔ b.serial < a.serial)) := by
  refine ⟨?_, ?_, ?_, ?_⟩ <;> intros <;> simp_all [isNewerThan]

theorem isNewerThan_ordering_rules_witness :
    isNewerThan ⟨⟨.pull, [], []⟩, none, 2, false⟩ ⟨⟨.pull, [], []⟩, some 5, 0, false⟩ = true :=
  (isNewerThan_ordering_rules ⟨⟨.pull, [], []⟩, none, 2, false⟩
    ⟨⟨.pull, [], []⟩, some 5, 0, false⟩).2.2.1 5 rfl rfl

/-- C5: `clean_part(p, s)` removes exactly the wrappers of part `p` at step
`s` and at every later step, and leaves every other coordinate of the state
map unchanged. -/
theorem cleanPart_frame (sm : StateManager) (part : Part) (step : Step) (q : String) (t : Step) :
    smGet (cleanPart sm part step) q t =
      if q = part.name ∧ stepLe step t = true then none else smGet sm q t := by
  cases step <;> cases t <;>
    by_cases hq : q = part.name <;>
    simp [cleanPart, nextSteps, smRemove, smGet, hq, stepLe, stepIdx]

/-- C9: marking a stored step updated replaces its wrapper by an ephemeral
wrapper with the same state, `updated = true` and the freshly drawn serial,
advances the serial generator, and the new wrapper is newer than every
wrapper created before it (every persisted wrapper and every ephemeral
wrapper with a smaller serial). -/
theorem markStepUpdated_spec (sm : StateManager) (part : Part) (step : Step) (w : StateWrapper)
    (h : smGet sm part.name step = some w) :
    smGet (markStepUpdated sm part step) part.name step =
      some ⟨w.state, none, sm.nextSerial, true⟩ ∧
    (markStepUpdated sm part step).nextSerial = sm.nextSerial + 1 ∧
    (∀ v : StateWrapper, v.timestamp ≠ none ∨ v.serial < sm.nextSerial →
      isNewerThan ⟨w.state, none, sm.nextSerial, true⟩ v = true) := by
  have h' : sm.state part.name step = some w := h
  refine ⟨?_, ?_, ?_⟩
  · simp [markStepUpdated, h', newEphemeralState, smSet, smGet]
  · simp [markStepUpdated, h', newEphemeralState, smSet, smGet]
  · intro v hv
    cases hvt : v.timestamp with
    | some tv => simp [isNewerThan, hvt]
    | none =>
      rcases hv with h1 | h2
      · exact absurd hvt h1
      · simp [isNewerThan, hvt, h2]

/-- State manager holding a single persisted PULL wrapper for part A, used
to witness the mark-updated specification. -/
def smW9 : StateManager := mkStateManager [partA6] []
  (fun q t => if q = "A" ∧ t = Step.pull then some (⟨.pull, [], []⟩, 7) else none)
  (fun _ => false)

theorem markStepUpdated_spec_witness :
    smGet (markStepUpdated smW9 partA6 Step.pull) "A" Step.pull =
      some ⟨⟨.pull, [], []⟩, none, 1, true⟩ ∧
    isNewerThan ⟨⟨.pull, [], []⟩, none, 1, true⟩ ⟨⟨.pull, [], []⟩, some 7, 0, false⟩ = true :=
  ⟨(markStepUpdated_spec smW9 partA6 Step.pull ⟨⟨.pull, [], []⟩, some 7, 0, false⟩ rfl).1,
   (markStepUpdated_spec smW9 partA6 Step.pull ⟨⟨.pull, [], []⟩, some 7, 0, false⟩ rfl).2.2
     ⟨⟨.pull, [], []⟩, some 7, 0, false⟩ (Or.inl (by decide))⟩

/-- C10: a part and step with no stored state wrapper has no outdated
report, and the computation is total (the embedded `outdated_report`
returns a value and raises nothing). -/
theorem outdatedReport_none_when_no_state (sm : StateManager) (part : Part) (step : Step)
    (h : smGet sm part.name step = none) : outdatedReport sm part step = none := by
  simp [outdatedReport, wasUpdated, outdatedReportForPart, h]

theorem outdatedReport_none_when_no_state_witness :
    outdatedReport sm6 partA6 Step.stage = none :=
  outdatedReport_none_when_no_state sm6 partA6 Step.stage rfl

/-- C7 (code bug): when the prime directory is absent, the single
`contextlib.suppress(FileNotFoundError)` around `_clean_all_parts` makes
the first `rmtree` abort the whole block, so the stage and parts
directories survive a clean to PULL even though the step conditions
`step <= STAGE` and `step <= PULL` hold. -/
theorem cleanAllParts_aborts_on_missing_prime :
    cleanAllParts ⟨false, true, true⟩ Step.pull = ⟨false, true, true⟩ ∧
    stepLe Step.pull Step.stage = true ∧ stepLe Step.pull Step.pull = true := by
  exact ⟨rfl, rfl, rfl⟩

/-- C8 (counterexample): a malformed control message (invalid JSON) raises
`InternalError`, not `InvalidControlAPICall`, contradicting the claim that
malformed messages raise `InvalidControlAPICall`. -/
theorem handleControlApi_malformed_cex :
    handleControlApi "p" "scr" (ControlMessage.invalid "not-json") =
      .error (.internalError "scr scriptlet called a function with invalid json") ∧
    isInvalidControlCall (handleControlApi "p" "scr" (ControlMessage.invalid "not-json")) =
      false :=
  ⟨rfl, rfl⟩

/-- C8 (amended): a malformed message (invalid JSON, or missing the
`function` or `args` attribute) raises `InternalError`; a well-formed
message naming one of pull, build, stage, prime raises nothing; a
well-formed message naming any other function raises
`InvalidControlAPICall`. -/
theorem handleControlApi_characterization (pn sn raw : String)
    (attrs : List (String × String)) :
    (∃ m, handleControlApi pn sn (.invalid raw) = .error (.internalError m)) ∧
    ((attrs.lookup "function" = some "pull" ∨ attrs.lookup "function" = some "build" ∨
        attrs.lookup "function" = some "stage" ∨ attrs.lookup "function" = some "prime") →
      (attrs.lookup "args").isSome = true →
      handleControlApi pn sn (.obj attrs) = .ok ()) ∧
    (∀ f, attrs.lookup "function" = some f →
      f ∉ (["pull", "build", "stage", "prime"] : List String) →
      (attrs.lookup "args").isSome = true →
      ∃ m, handleControlApi pn sn (.obj attrs) = .error (.invalidControlAPICall pn m)) ∧
    ((attrs.lookup "function").isNone = true ∨ (attrs.lookup "args").isNone = true →
      ∃ m, handleControlApi pn sn (.obj attrs) = .error (.internalError m)) := by
  refine ⟨⟨_, rfl⟩, ?_, ?_, ?_⟩
  · intro hf ha
    obtain ⟨v, hv⟩ := Option.isSome_iff_exists.mp ha
    rcases hf with h | h | h | h <;> simp [handleControlApi, h, hv]
  · intro f hf hnot ha
    obtain ⟨v, hv⟩ := Option.isSome_iff_exists.mp ha
    simp only [List.mem_cons, List.not_mem_nil, or_false, not_or] at hnot
    obtain ⟨n1, n2, n3, n4⟩ := hnot
    refine ⟨"invalid function " ++ pyRepr f, ?_⟩
    simp [handleControlApi, hf, hv, n1, n2, n3, n4]
  · intro hmiss
    rcases hmiss with h | h
    · refine ⟨sn ++ " control call missing attribute function", ?_⟩
      simp [handleControlApi, h]
    · cases hf : attrs.lookup "function" with
      | none => exact ⟨sn ++ " control call missing attribute function", by simp [handleControlApi, hf]⟩
      | some f =>
        refine ⟨sn ++ " control call missing attribute args", ?_⟩
        simp [handleControlApi, hf, h]

theorem handleControlApi_characterization_witness :
    handleControlApi "p" "scr" (.obj [("function", "pull"), ("args", "[]")]) = .ok () ∧
    (∃ m, handleControlApi "p" "scr" (.obj [("function", "frobnicate"), ("args", "[]")]) =
      .error (.invalidControlAPICall "p" m)) :=
  ⟨(handleControlApi_characterization "p" "scr" "x"
      [("function", "pull"), ("args", "[]")]).2.1 (Or.inl rfl) rfl,
   (handleControlApi_characterization "p" "scr" "x"
      [("function", "frobnicate"), ("args", "[]")]).2.2.1 "frobnicate" rfl (by decide) rfl⟩

/-- C6: a fresh plan over two parts A and B (B after A) with no stored
state targets PRIME with exactly the eight RUN actions, breadth-first
across parts and depth across steps, with no extra prepare actions
interleaved. -/
theorem plan_fresh_two_parts_linear_dep :
    resultActions (sequencerPlan 8 [partA6, partB6] sm6 Step.prime none) =
      some [⟨"A", .pull, .run, none⟩, ⟨"B", .pull, .run, none⟩,
            ⟨"A", .build, .run, none⟩, ⟨"B", .build, .run, none⟩,
            ⟨"A", .stage, .run, none⟩, ⟨"B", .stage, .run, none⟩,
            ⟨"A", .prime, .run, none⟩, ⟨"B", .prime, .run, none⟩] := by
  rfl

/-- The disjunction making a single step of the chain demand a run:
no stored state, an outdated report, or a dirty report. -/
def stepDemandsRun (sm : StateManager) (part : Part)
    (dirtyF : Step → Except String (Option DirtyReport)) (s : Step) : Prop :=
  hasStepRun sm part s = false ∨ (outdatedReport sm part s).isSome = true ∨
    ∃ r, dirtyF s = .ok (some r)

theorem shouldStepRunChainF_spec (sm : StateManager) (part : Part)
    (dirtyF : Step → Except String (Option DirtyReport)) (l : List Step) (b : Bool)
    (h : shouldStepRunChainF sm part dirtyF l = .ok b) :
    (b = true ↔ ∃ s ∈ l, stepDemandsRun sm part dirtyF s) := by
  induction l generalizing b with
  | nil =>
    simp only [shouldStepRunChainF] at h
    cases h
    simp
  | cons s rest ih =>
    rw [shouldStepRunChainF] at h
    by_cases h1 : hasStepRun sm part s = false
    · rw [if_pos h1] at h
      cases h
      simp only [true_iff]
      exact ⟨s, List.mem_cons_self s rest, Or.inl h1⟩
    · rw [if_neg h1] at h
      by_cases h2 : (outdatedReport sm part s).isSome = true
      · rw [if_pos h2] at h
        cases h
        simp only [true_iff]
        exact ⟨s, List.mem_cons_self s rest, Or.inr (Or.inl h2)⟩
      · rw [if_neg h2] at h
        cases hd : dirtyF s with
        | error e =>
          rw [hd, exceptBind_error] at h
          cases h
        | ok dr =>
          rw [hd, exceptBind_ok] at h
          cases dr with
          | some r =>
            simp only [Option.isSome_some, if_pos] at h
            cases h
            simp only [true_iff]
            exact ⟨s, List.mem_cons_self s rest, Or.inr (Or.inr ⟨r, hd⟩)⟩
          | none =>
            simp only [Option.isSome_none, Bool.false_eq_true, if_false] at h
            rw [ih b h, List.exists_mem_cons_iff]
            have hno : ¬stepDemandsRun sm part dirtyF s := by
              rintro (hc | hc | ⟨r, hc⟩)
              · exact h1 hc
              · exact h2 hc
              · rw [hd] at hc
                cases hc
            constructor
            · exact fun hx => Or.inr hx
            · rintro (hx | hx)
              · exact absurd hx hno
              · exact hx

/-- C3: `should_step_run(part, step)` returns true exactly when some step
of the descending chain from `step` (the step itself or any earlier step
of the same part) has no stored state, a non-None outdated report, or a
non-None dirty report; otherwise it returns false.  The hypothesis states
that the call returns normally, which it always does in a plan over an
acyclic part graph with sufficient fuel. -/
theorem shouldStepRun_characterization (fuel : Nat) (sm : StateManager) (part : Part)
    (step : Step) (b : Bool) (h : shouldStepRun fuel sm part step = .ok b) :
    (b = true ↔ ∃ s ∈ stepsChain step,
      hasStepRun sm part s = false ∨ (outdatedReport sm part s).isSome = true ∨
        ∃ r, dirtyReportW fuel sm part s = .ok (some r)) :=
  shouldStepRunChainF_spec sm part (dirtyReportW fuel sm part) (stepsChain step) b h

theorem shouldStepRun_characterization_witness :
    (true = true ↔ ∃ s ∈ stepsChain Step.pull,
      hasStepRun sm6 partA6 s = false ∨ (outdatedReport sm6 partA6 s).isSome = true ∨
        ∃ r, dirtyReportW 1 sm6 partA6 s = .ok (some r)) :=
  shouldStepRun_characterization 1 sm6 partA6 Step.pull true rfl

theorem findNewerPrevious_isSome (sm : StateManager) (part : Part) (stw : StateWrapper)
    (l : List Step) :
    (findNewerPrevious sm part stw l).isSome = true ↔
      ∃ s ∈ l, ∃ pw, smGet sm part.name s = some pw ∧ isNewerThan pw stw = true := by
  induction l with
  | nil => simp [findNewerPrevious]
  | cons s rest ih =>
    cases hg : smGet sm part.name s with
    | none =>
      simp only [findNewerPrevious, hg]
      rw [ih, List.exists_mem_cons_iff]
      constructor
      · exact fun hx => Or.inr hx
      · rintro (⟨pw, hpw, _⟩ | hx)
        · rw [hg] at hpw; cases hpw
        · exact hx
    | some pw =>
      cases hn : isNewerThan pw stw with
      | true =>
        simp only [findNewerPrevious, hg]
        rw [if_pos hn]
        simp only [Option.isSome_some, true_iff]
        exact ⟨s, List.mem_cons_self s rest, pw, hg, hn⟩
      | false =>
        simp only [findNewerPrevious, hg]
        rw [if_neg (by rw [hn]; exact Bool.false_ne_true)]
        rw [ih, List.exists_mem_cons_iff]
        constructor
        · exact fun hx => Or.inr hx
        · rintro (⟨pw2, hpw2, hn2⟩ | hx)
          · rw [hg] at hpw2
            cases hpw2
            rw [hn] at hn2
            cases hn2
          · exact hx

/-- C4: for a step other than PULL with a stored wrapper, the outdated
report is non-None exactly when the step has not been marked updated and
some earlier step of the same part has a stored wrapper newer than this
step's wrapper; a step already marked updated always yields None. -/
theorem outdatedReport_characterization (sm : StateManager) (part : Part) (step : Step)
    (stw : StateWrapper) (hs : step ≠ Step.pull) (h : smGet sm part.name step = some stw) :
    ((outdatedReport sm part step).isSome = true ↔
      (stw.updated = false ∧ ∃ s ∈ previousSteps step, ∃ pw,
        smGet sm part.name s = some pw ∧ isNewerThan pw stw = true)) ∧
    (stw.updated = true → outdatedReport sm part step = none) := by
  cases hu : stw.updated
  · have hw : wasUpdated sm part.name step = false := by
      simp only [wasUpdated, h, hu]
    have hfor : outdatedReportForPart sm part step =
        findNewerPrevious sm part stw (previousSteps step).reverse := by
      simp only [outdatedReportForPart, h, if_neg hs]
    constructor
    · rw [outdatedReport, if_neg (by rw [hw]; exact Bool.false_ne_true), hfor,
        findNewerPrevious_isSome]
      constructor
      · rintro ⟨s, hmem, hx⟩
        exact ⟨rfl, s, List.mem_reverse.mp hmem, hx⟩
      · rintro ⟨-, s, hmem, hx⟩
        exact ⟨s, List.mem_reverse.mpr hmem, hx⟩
    · intro hu2
      cases hu2
  · have hw : wasUpdated sm part.name step = true := by
      simp only [wasUpdated, h, hu]
    have hnone : outdatedReport sm part step = none := by
      rw [outdatedReport, if_pos hw]
    constructor
    · rw [hnone]
      simp
    · intro _
      exact hnone

/-- Part used to witness the outdated-report characterization. -/
def partD : Part := ⟨"D", [], []⟩

/-- State manager where D's PULL wrapper (timestamp 5) is newer than its
BUILD wrapper (timestamp 3). -/
def smW4 : StateManager := mkStateManager [partD] []
  (fun q t =>
    if q = "D" ∧ t = Step.pull then some (⟨.pull, [], []⟩, 5)
    else if q = "D" ∧ t = Step.build then some (⟨.build, [], []⟩, 3)
    else none)
  (fun _ => false)

theorem outdatedReport_characterization_witness :
    ((outdatedReport smW4 partD Step.build).isSome = true ↔
      ((⟨⟨.build, [], []⟩, some 3, 0, false⟩ : StateWrapper).updated = false ∧
        ∃ s ∈ previousSteps Step.build, ∃ pw,
          smGet smW4 partD.name s = some pw ∧
          isNewerThan pw (⟨⟨.build, [], []⟩, some 3, 0, false⟩ : StateWrapper) = true)) ∧
    ((⟨⟨.build, [], []⟩, some 3, 0, false⟩ : StateWrapper).updated = true →
      outdatedReport smW4 partD Step.build = none) :=
  outdatedReport_characterization smW4 partD Step.build ⟨⟨.build, [], []⟩, some 3, 0, false⟩
    (by decide) rfl

theorem runStepF_last (prepF : Part → Step → SeqSt → Except String SeqSt) (part : Part)
    (step : Step) (reason : Option String) (rerun : Bool) (st st' : SeqSt)
    (h : runStepF prepF part step reason rerun st = .ok st') :
    st'.actions.getLast? =
      some ⟨part.name, step, if rerun then ActionType.rerun else ActionType.run, reason⟩ := by
  rw [runStepF] at h
  cases hp : prepF part step st with
  | error e =>
    rw [hp, exceptBind_error] at h
    cases h
  | ok st1 =>
    rw [hp, exceptBind_ok] at h
    cases h
    simp [addAction, List.getLast?_concat]

theorem rerunStepF_last (prepF : Part → Step → SeqSt → Except String SeqSt) (part : Part)
    (step : Step) (reason : Option String) (st st' : SeqSt)
    (h : rerunStepF prepF part step reason st = .ok st') :
    st'.actions.getLast? = some ⟨part.name, step, ActionType.rerun, reason⟩ := by
  rw [rerunStepF] at h
  have := runStepF_last prepF part step reason true _ st' h
  simpa using this

/-- C1 (amended): the decision of `_add_step_actions` for a part and step
follows the five cases in order - (1) a step that has not run is RUN with
the reason in force; (2) else, with an explicit part selection, the target
step of a selected part is RERUN, with reason "requested step" when no
reason was passed down from dependency preparation and with the
passed-down reason otherwise; (3) else a dirty step is RERUN with the
dirty report's reason; (4) else an outdated step is UPDATE at PULL or
BUILD and RERUN otherwise, with the outdated report's reason; (5) else the
step is SKIP with reason "already ran".  The emitted decision is the last
action appended by the call; `prepF` abstracts the dependency-preparation
recursion, which only prepends actions of its own. -/
theorem addStepActionsF_decision (fuel : Nat)
    (prepF : Part → Step → SeqSt → Except String SeqSt)
    (current target : Step) (part : Part) (names : Option (List String))
    (reason : Option String) (st st' : SeqSt)
    (h : addStepActionsF fuel prepF current target part names reason st = .ok st') :
    (hasStepRun st.sm part current = false →
      st'.actions.getLast? = some ⟨part.name, current, .run, reason⟩) ∧
    (hasStepRun st.sm part current = true →
      requestedCond names current target part = true →
      st'.actions.getLast? = some ⟨part.name, current, .rerun, reasonOrRequested reason⟩) ∧
    (hasStepRun st.sm part current = true →
      requestedCond names current target part = false →
      ∀ r, dirtyReportW fuel st.sm part current = .ok (some r) →
        st'.actions.getLast? = some ⟨part.name, current, .rerun, some r.summary⟩) ∧
    (hasStepRun st.sm part current = true →
      requestedCond names current target part = false →
      dirtyReportW fuel st.sm part current = .ok none →
      ∀ r, outdatedReport st.sm part current = some r →
        ((current = Step.pull ∨ current = Step.build) →
          st'.actions.getLast? = some ⟨part.name, current, .update, some r.summary⟩) ∧
        (¬(current = Step.pull ∨ current = Step.build) →
          st'.actions.getLast? = some ⟨part.name, current, .rerun, some r.summary⟩)) ∧
    (hasStepRun st.sm part current = true →
      requestedCond names current target part = false →
      dirtyReportW fuel st.sm part current = .ok none →
      outdatedReport st.sm part current = none →
      st'.actions.getLast? = some ⟨part.name, current, .skip, some "already ran"⟩) := by
  rw [addStepActionsF] at h
  by_cases h1 : hasStepRun st.sm part current = false
  · rw [if_pos h1] at h
    have hl := runStepF_last prepF part current reason false st st' h
    have hno : ∀ {C : Prop}, hasStepRun st.sm part current = true → C :=
      fun hh => absurd (h1.symm.trans hh) (by decide)
    exact ⟨fun _ => hl, fun hh => hno hh, fun hh => hno hh, fun hh => hno hh, fun hh => hno hh⟩
  · rw [if_neg h1] at h
    have h1' : hasStepRun st.sm part current = true := by
      cases hb : hasStepRun st.sm part current
      · exact absurd hb h1
      · rfl
    have hno1 : ∀ {C : Prop}, hasStepRun st.sm part current = false → C :=
      fun hh => absurd (h1'.symm.trans hh) (by decide)
    by_cases h2 : requestedCond names current target part = true
    · rw [if_pos h2] at h
      have hl := rerunStepF_last prepF part current (reasonOrRequested reason) st st' h
      have hno2 : ∀ {C : Prop}, requestedCond names current target part = false → C :=
        fun hh => absurd (h2.symm.trans hh) (by decide)
      exact ⟨fun hh => hno1 hh, fun _ _ => hl, fun _ hh => hno2 hh, fun _ hh => hno2 hh,
        fun _ hh => hno2 hh⟩
    · have h2' : requestedCond names current target part = false := by
        cases hb : requestedCond names current target part
        · rfl
        · exact absurd hb h2
      have hno2 : ∀ {C : Prop}, requestedCond names current target part = true → C :=
        fun hh => absurd (h2'.symm.trans hh) (by decide)
      rw [if_neg h2] at h
      cases hd : dirtyReportW fuel st.sm part current with
      | error e =>
        rw [hd, exceptBind_error] at h
        cases h
      | ok dr =>
        rw [hd, exceptBind_ok] at h
        cases dr with
        | some report =>
          have hl := rerunStepF_last prepF part current (some report.summary) st st' h
          refine ⟨fun hh => hno1 hh, fun _ hh => hno2 hh, fun _ _ r hr => ?_,
            fun _ _ hn => ?_, fun _ _ hn => ?_⟩
          · have hrr : report = r := by
              injection hr with hr2
              injection hr2 with hr3
            rw [← hrr]
            exact hl
          · exact absurd hn (by simp)
          · exact absurd hn (by simp)
        | none =>
          cases ho : outdatedReport st.sm part current with
          | some report =>
            simp only [ho] at h
            by_cases hc : current = Step.pull ∨ current = Step.build
            · rw [if_pos hc] at h
              injection h with h3
              have hl : (markAfter part current
                  (updateStepSt part current (some report.summary) st)).actions.getLast? =
                  some ⟨part.name, current, .update, some report.summary⟩ := by
                simp [markAfter, updateStepSt, addAction, List.getLast?_concat]
              rw [h3] at hl
              refine ⟨fun hh => hno1 hh, fun _ hh => hno2 hh, fun _ _ r hr => ?_,
                fun _ _ _ r hr => ?_, fun _ _ _ hn => ?_⟩
              · exact absurd hr (by simp)
              · have hrr : report = r := by injection hr
                rw [← hrr]
                exact ⟨fun _ => hl, fun hnc => absurd hc hnc⟩
              · exact absurd hn (by simp)
            · rw [if_neg hc] at h
              cases hr2 : rerunStepF prepF part current (some report.summary) st with
              | error e =>
                rw [hr2] at h
                simp [Except.map] at h
              | ok st1 =>
                rw [hr2] at h
                simp only [Except.map] at h
                injection h with h3
                have hl := rerunStepF_last prepF part current (some report.summary) st st1 hr2
                have hl2 : st'.actions.getLast? =
                    some ⟨part.name, current, .rerun, some report.summary⟩ := by
                  rw [← h3]
                  simpa [markAfter] using hl
                refine ⟨fun hh => hno1 hh, fun _ hh => hno2 hh, fun _ _ r hr => ?_,
                  fun _ _ _ r hr => ?_, fun _ _ _ hn => ?_⟩
                · exact absurd hr (by simp)
                · have hrr : report = r := by injection hr
                  rw [← hrr]
                  exact ⟨fun hcc => absurd hcc hc, fun _ => hl2⟩
                · exact absurd hn (by simp)
          | none =>
            simp only [ho] at h
            injection h with h3
            have hl : (addAction part current ActionType.skip (some "already ran")
                st).actions.getLast? =
                some ⟨part.name, current, .skip, some "already ran"⟩ := by
              simp [addAction, List.getLast?_concat]
            rw [h3] at hl
            refine ⟨fun hh => hno1 hh, fun _ hh => hno2 hh, fun _ _ r hr => ?_,
              fun _ _ _ r hr => ?_, fun _ _ _ _ => hl⟩
            · exact absurd hr (by simp)
            · exact absurd hr (by simp)

/-- Dependency preparation that adds nothing, used to witness the
five-case decision theorem on a fresh part. -/
def prepId : Part → Step → SeqSt → Except String SeqSt := fun _ _ st => .ok st

/-- The sequencer context produced by deciding PULL for part A on the
fresh state: the RUN action plus the eagerly written ephemeral state. -/
def c1wRes : SeqSt :=
  ⟨setState sm6 partA6 .pull (runStateFor partA6 .pull []), [⟨"A", .pull, .run, none⟩]⟩

theorem addStepActionsF_decision_witness :
    hasStepRun sm6 partA6 Step.pull = false ∧
    c1wRes.actions.getLast? = some ⟨"A", Step.pull, ActionType.run, none⟩ :=
  ⟨rfl, (addStepActionsF_decision 1 prepId Step.pull Step.prime partA6 none none
    ⟨sm6, []⟩ c1wRes rfl).1 rfl⟩

/-- C1 (counterexample): in the requested-step scenario, planning STAGE
for part B makes the prepare recursion replan part A up to STAGE with the
passed-down reason; A's STAGE satisfies the case-2 conditions (it has run,
an explicit part selection was given, the step equals the call's target
step and A is selected), yet the emitted RERUN carries the reason
`required to stage 'B'` - not "requested step" as the claim states, and
not the dirty report's reason either. -/
theorem sequencer_requested_step_reason_cex :
    resultActions (sequencerPlan 8 [partAc, partBc] smc Step.stage (some ["B"])) =
      some (skipsC ++ [⟨"A", .stage, .rerun, some reasonBc⟩, ⟨"B", .stage, .run, none⟩]) ∧
    resultActions (addStepActionsF 7 (prepareStepW 7 (sortParts [partAc, partBc]))
        Step.stage Step.stage partAc (some ["A"]) (some reasonBc) ⟨smc, skipsC⟩) =
      some (skipsC ++ [⟨"A", .stage, .rerun, some reasonBc⟩]) ∧
    hasStepRun smc partAc Step.stage = true ∧
    requestedCond (some ["A"]) Step.stage Step.stage partAc = true ∧
    some reasonBc ≠ some "requested step" := by
  refine ⟨rfl, rfl, rfl, rfl, by decide⟩

end CraftParts
